import Mathlib

/-!
Verification of the documentation-driven code generator of this repository
(`codegen/gen.py` and `gen.py`, plus the `_get_request` logic of the
generated client).  Strings are modelled as `String` / `List Char`;
the Python regex substitutions and string methods used by the source are
translated into executable Lean functions over character lists.
-/

/-! ## ASCII case model

The Python constructs used by the source (`str.lower`, `str.upper` on the
first character of `str.capitalize`, and the regex classes `[A-Z]`,
`[a-z]`, `[a-z0-9]`) act on the 26 ASCII letter pairs; `caseTable` lists
them explicitly. -/

/-- The 26 ASCII uppercase/lowercase letter pairs. -/
def caseTable : List (Char × Char) :=
  [('A', 'a'), ('B', 'b'), ('C', 'c'), ('D', 'd'), ('E', 'e'), ('F', 'f'),
   ('G', 'g'), ('H', 'h'), ('I', 'i'), ('J', 'j'), ('K', 'k'), ('L', 'l'),
   ('M', 'm'), ('N', 'n'), ('O', 'o'), ('P', 'p'), ('Q', 'q'), ('R', 'r'),
   ('S', 's'), ('T', 't'), ('U', 'u'), ('V', 'v'), ('W', 'w'), ('X', 'x'),
   ('Y', 'y'), ('Z', 'z')]

/-- The regex class `[A-Z]`. -/
def isUp (c : Char) : Bool := caseTable.any (fun p => p.1 == c)

/-- The regex class `[a-z]`. -/
def isLowC (c : Char) : Bool := caseTable.any (fun p => p.2 == c)

/-- The regex class `[a-z0-9]` (second regex of `to_snake_case`). -/
def isLowDigit (c : Char) : Bool := isLowC c || c.isDigit

/-- Python `str.lower` on one character (ASCII). -/
def lowerChar (c : Char) : Char :=
  ((caseTable.find? (fun p => p.1 == c)).map (fun p => p.2)).getD c

/-- Python `str.upper` on one character (ASCII). -/
def upChar (c : Char) : Char :=
  ((caseTable.find? (fun p => p.2 == c)).map (fun p => p.1)).getD c

/-- Python whitespace for `str.strip` / `str.split()` / regex `\s`. -/
def pyIsSpace (c : Char) : Bool :=
  c == ' ' || c == '\t' || c == '\n' || c == '\r' || c == '\x0b' || c == '\x0c'

/-! ## Python string helpers -/

/-- Python `str.strip()` : drop whitespace from both ends. -/
def pyStrip (l : List Char) : List Char :=
  ((l.dropWhile pyIsSpace).reverse.dropWhile pyIsSpace).reverse

/-- Python `s.split(sep)` for a one-character separator, and
`re.split` over a class of one-character alternatives: split at every
separator character, keeping empty pieces. -/
def splitP (p : Char → Bool) : List Char → List (List Char)
  | [] => [[]]
  | c :: rest =>
    let r := splitP p rest
    if p c then [] :: r
    else
      match r with
      | [] => [[c]]
      | a :: as => (c :: a) :: as

/-- Python `str.split()` with no argument: whitespace-separated words,
empty pieces discarded. -/
def pyWords (l : List Char) : List (List Char) :=
  (splitP pyIsSpace l).filter (fun w => !w.isEmpty)

/-- Python `needle in hay` for strings: substring occurrence. -/
def occursIn (needle : List Char) : List Char → Bool
  | [] => needle.isEmpty
  | c :: rest => needle.isPrefixOf (c :: rest) || occursIn needle rest

/-- `needle in hay` on `String`s (`hay` first, as in `"x" in path`
read as `strContains path "x"`). -/
def strContains (hay pat : String) : Bool := occursIn pat.data hay.data

/-- Python `path.endswith(suf)`. -/
def strEndsWith (s suf : String) : Bool := List.isSuffixOf suf.data s.data

/-! ## `to_snake_case` (identical in `gen.py` and `codegen/gen.py`)

```python
def to_snake_case(name: str) -> str:
    s1 = re.sub(r'(.)([A-Z][a-z]+)', r'\1_\2', name)
    return re.sub(r'([a-z0-9])([A-Z])', r'\1_\2', s1).lower()
```

`sub1go` performs the first substitution by a left-to-right scan.  A match
needs a character (`.`, anything but a newline), an uppercase letter and a
non-empty greedy lowercase run; the scan resumes after the matched text,
which `sub1go` realises with a `skip` mode that copies the remainder of
the consumed lowercase run. -/

def sub1go : Bool → List Char → List Char
  | _, [] => []
  | skip, c :: c1 :: c2 :: rest2 =>
    if skip && isLowC c then c :: sub1go true (c1 :: c2 :: rest2)
    else if (c != '\n') && isUp c1 && isLowC c2 then
      c :: '_' :: c1 :: c2 :: sub1go true rest2
    else c :: sub1go false (c1 :: c2 :: rest2)
  | _, [c] => [c]
  | _, [c, d] => [c, d]

/-- First regex substitution of `to_snake_case`:
`re.sub(r'(.)([A-Z][a-z]+)', r'\1_\2', name)`. -/
def sub1 (l : List Char) : List Char := sub1go false l

/-- Second regex substitution of `to_snake_case`:
`re.sub(r'([a-z0-9])([A-Z])', r'\1_\2', s1)`.  The scan resumes after a
match; the second matched character is uppercase and hence can never open
the next match, so resuming after it is faithful. -/
def sub2 : List Char → List Char
  | [] => []
  | [c] => [c]
  | c0 :: c1 :: rest =>
    if isLowDigit c0 && isUp c1 then c0 :: '_' :: c1 :: sub2 rest
    else c0 :: sub2 (c1 :: rest)

/-- `to_snake_case` on character lists. -/
def toSnake (l : List Char) : List Char := (sub2 (sub1 l)).map lowerChar

/-- `to_snake_case` on `String`. -/
def toSnakeStr (s : String) : String := String.mk (toSnake s.data)

example : toSnakeStr "totalScores" = "total_scores" := by decide
example : toSnakeStr "HoM" = "ho_m" := by decide
example : toSnakeStr "aBcDe" = "a_bc_de" := by decide
example : toSnakeStr "displayName" = "display_name" := by decide

/-! ## `to_pascal_case` (identical in both generators)

```python
def to_pascal_case(name: str) -> str:
    name = name.lstrip("_")
    name = name.replace("btd6", "Btd6").replace("battles2", "Battles2")
    return "".join(part.capitalize() for part in re.split("_|-", name))
```
-/

/-- Python `name.replace("btd6", "Btd6")`: left-to-right, non-overlapping. -/
def replaceBtd6 : List Char → List Char
  | 'b' :: 't' :: 'd' :: '6' :: rest => 'B' :: 't' :: 'd' :: '6' :: replaceBtd6 rest
  | c :: rest => c :: replaceBtd6 rest
  | [] => []

/-- Python `name.replace("battles2", "Battles2")`. -/
def replaceBattles2 : List Char → List Char
  | 'b' :: 'a' :: 't' :: 't' :: 'l' :: 'e' :: 's' :: '2' :: rest =>
    'B' :: 'a' :: 't' :: 't' :: 'l' :: 'e' :: 's' :: '2' :: replaceBattles2 rest
  | c :: rest => c :: replaceBattles2 rest
  | [] => []

/-- Python `part.capitalize()`: first character uppercased, the rest
lowercased. -/
def capitalizeL : List Char → List Char
  | [] => []
  | c :: rest => upChar c :: rest.map lowerChar

/-- `to_pascal_case` on character lists. -/
def toPascal (l : List Char) : List Char :=
  ((splitP (fun c => c == '_' || c == '-')
      (replaceBattles2 (replaceBtd6 (l.dropWhile (fun c => c == '_'))))).map
    capitalizeL).flatten

/-- `to_pascal_case` on `String`. -/
def toPascalStr (s : String) : String := String.mk (toPascal s.data)

example : toPascalStr "_btd6_race" = "Btd6Race" := by decide
example : toPascalStr "battles2-user" = "Battles2User" := by decide

/-! ## `map_type_hint` (identical in both generators)

```python
def map_type_hint(type_str: str) -> str:
    type_str = type_str.strip().lower()
    if not type_str:
        return "Any"
    if "," in type_str:
        literals = [f"'{val.strip()}'" for val in type_str.split(",")]
        return f"Literal[{', '.join(literals)}]"
    type_map = { ... }
    return type_map.get(type_str, "Any")
```
-/

/-- The `type_map` dictionary of `map_type_hint`. -/
def typeMap : List (String × String) :=
  [("string", "str"), ("number", "int | float"), ("boolean", "bool"),
   ("array", "list"), ("string[]", "list[str]"), ("map", "dict[str, Any]"),
   ("nestedmap", "dict[str, Any]"), ("asseturl", "str"),
   ("raw", "dict[str, Any]")]

/-- The list of trimmed values produced by the comma branch of
`map_type_hint`: `[val.strip() for val in type_str.strip().lower().split(",")]`. -/
def literalOptions (s : String) : List String :=
  (splitP (fun c => c == ',') ((pyStrip s.data).map lowerChar)).map
    (fun v => String.mk (pyStrip v))

/-- `map_type_hint` on `String`. -/
def mapTypeHint (s : String) : String :=
  let t : List Char := (pyStrip s.data).map lowerChar
  if t.isEmpty then "Any"
  else if t.contains ',' then
    "Literal[" ++
      String.intercalate ", " ((literalOptions s).map (fun v => "'" ++ v ++ "'")) ++ "]"
  else
    ((typeMap.find? (fun kv => kv.1 == String.mk t)).map (fun kv => kv.2)).getD "Any"

example : mapTypeHint "String" = "str" := by decide
example : mapTypeHint "" = "Any" := by decide
example : mapTypeHint " Number " = "int | float" := by decide
example : mapTypeHint "garbage" = "Any" := by decide

/-! ## Endpoint cardinality (`is_list`)

`codegen/gen.py`, `parse_api_methods` (evaluated only when the endpoint
section declares a response model):

```python
list_triggers = ["leaderboard", "filter", "matches", "homs"]
if ((":" not in path)
    or any(trigger in path for trigger in list_triggers)
    or path.endswith("/maps")):
    is_list = True
```

`gen.py`, `generate_api_wrapper`:

```python
if (":" not in path) or "leaderboard" in path or "filter" in path \
   or "/maps" == path or "matches" in path or "homs" in path:
    is_list = True
```
-/

/-- The `list_triggers` list of `codegen/gen.py`. -/
def listTriggers : List String := ["leaderboard", "filter", "matches", "homs"]

/-- `is_list` as computed by `codegen/gen.py` (`parse_api_methods`). -/
def isListCodegen (path : String) : Bool :=
  !(strContains path ":") || listTriggers.any (fun t => strContains path t)
    || strEndsWith path "/maps"

/-- `is_list` as computed by `gen.py` (`generate_api_wrapper`). -/
def isListGen (path : String) : Bool :=
  !(strContains path ":") || strContains path "leaderboard"
    || strContains path "filter" || (path == "/maps")
    || strContains path "matches" || strContains path "homs"

/-- The cardinality rule in the spec's words, first match wins: no
parameter segment → collection; a trigger word → collection; path ending
in a `maps` segment → collection; otherwise single (`true` = collection). -/
def cardinalityRuleSpec (path : String) : Bool :=
  if !(strContains path ":") then true
  else if listTriggers.any (fun t => strContains path t) then true
  else if strEndsWith path "/maps" then true
  else false

/-! ## Function-name derivation (`codegen/gen.py`, `parse_api_methods`)

```python
clean_path = path.replace("/", " ").replace(":", " by ").strip()
clean_path = re.sub(r"\s+", "_", clean_path)
function_name = to_snake_case(f"get_{clean_path}")
```
-/

/-- Python `path.replace("/", " ")`. -/
def replSlash : List Char → List Char
  | [] => []
  | c :: rest => (if c == '/' then ' ' else c) :: replSlash rest

/-- Python `path.replace(":", " by ")`. -/
def replColon : List Char → List Char
  | [] => []
  | c :: rest =>
    if c == ':' then ' ' :: 'b' :: 'y' :: ' ' :: replColon rest
    else c :: replColon rest

/-- `re.sub(r"\s+", "_", s)`: every maximal whitespace run becomes one
underscore.  The flag records whether the scan is inside a run. -/
def collapseWsGo : Bool → List Char → List Char
  | _, [] => []
  | inRun, c :: rest =>
    if pyIsSpace c then
      if inRun then collapseWsGo true rest
      else '_' :: collapseWsGo true rest
    else c :: collapseWsGo false rest

/-- `re.sub(r"\s+", "_", s)`. -/
def collapseWs (l : List Char) : List Char := collapseWsGo false l

/-- `function_name` derivation of `parse_api_methods` on character lists. -/
def parseFunctionName (p : List Char) : List Char :=
  toSnake ("get_".data ++ collapseWs (pyStrip (replColon (replSlash p))))

/-- `function_name` derivation on `String`. -/
def parseFunctionNameStr (p : String) : String :=
  String.mk (parseFunctionName p.data)

example : parseFunctionNameStr "/btd6/races" = "get_btd6_races" := by decide
example : parseFunctionNameStr "/btd6/races/:raceID/leaderboard"
    = "get_btd6_races_by_race_id_leaderboard" := by decide

/-! ## Schema extractor (`codegen/gen.py`, `generate_pydantic_models`)

The HTML layer is abstracted: every `Response Model:` heading found by the
xpath pass yields its stripped trailing label (`raw_name`) and, when the
following `container-fluid` sibling exists, the list of
`nkEndpointSectionParameter` rows, each a list of column texts.  The loop

```python
for title_elem in model_title_elements:
    model_name_raw = ...
    if model_name_raw in processed_models: continue
    processed_models.add(model_name_raw)
    class_name = to_pascal_case(model_name_raw)
    ...
    param_container = title_elem.xpath('./following-sibling::...')
    if not param_container: continue
    field_rows = ...
    for row in field_rows:
        cols = row.xpath("./div")
        if len(cols) > 2: ... fields_data.append(...)
    ... model_definitions.append(model_code)
```

is `genModels` below. -/

/-- One `row nkEndpointSectionParameter` row: its `./div` column texts. -/
structure DocRow where
  cols : List String
deriving DecidableEq

/-- One `Response Model:` heading: the stripped label and, when the
following `container-fluid` sibling exists, its field rows. -/
structure DocSection where
  raw_name : String
  container : Option (List DocRow)
deriving DecidableEq

/-- Spec §3 `FieldDefinition`: normalized name, inferred type, wire alias,
description. -/
structure FieldDefinition where
  name : String
  type_hint : String
  wire_alias : String
  descr : String
deriving DecidableEq

/-- Spec §3 `ModelDefinition`. -/
structure ModelDefinition where
  raw_name : String
  class_name : String
  fields : List FieldDefinition
deriving DecidableEq

/-- One field entry from one row's first three column texts, as built by
the body of the row loop of `generate_pydantic_models`. -/
def mkField (c0 c1 c2 : String) : FieldDefinition :=
  let raw : List Char := pyStrip c0.data
  let base : String := toSnakeStr (String.mk (raw.dropWhile (fun c => c == '_')))
  let pname : String :=
    if raw.head? = some '_' then base ++ "_data" else base
  let descWords : String :=
    String.intercalate " " ((pyWords (pyStrip c1.data)).map String.mk)
  { name := pname
    type_hint := mapTypeHint (String.mk (pyStrip c2.data))
    wire_alias := String.mk raw
    descr := if descWords = "" then "No description available." else descWords }

/-- The row loop: rows with fewer than three columns are skipped. -/
def extractFields (rows : List DocRow) : List FieldDefinition :=
  rows.filterMap (fun r =>
    match r.cols with
    | c0 :: c1 :: c2 :: _ => some (mkField c0 c1 c2)
    | _ => none)

/-- The model built for one surviving heading whose container exists. -/
def mkModel (n : String) (rows : List DocRow) : ModelDefinition :=
  { raw_name := n, class_name := toPascalStr n, fields := extractFields rows }

/-- The heading loop of `generate_pydantic_models`: `seen` is the
`processed_models` set.  A name is added to `seen` before the container
lookup; a heading without container contributes nothing but still marks
its name processed. -/
def genModels : List DocSection → List String → List ModelDefinition
  | [], _ => []
  | s :: rest, seen =>
    if seen.contains s.raw_name then genModels rest seen
    else
      match s.container with
      | none => genModels rest (s.raw_name :: seen)
      | some rows => mkModel s.raw_name rows :: genModels rest (s.raw_name :: seen)

/-! ## The generated client's `_get_request`

`gen.py` lines 94–109 (and verbatim in the generated
`btd6_api_wrapper.py`):

```python
async def _get_request(self, endpoint: str) -> Any | None:
    try:
        response = await self.client.get(endpoint)
        response.raise_for_status()
        data = response.json()
        if data and data.get('error'):
            print(...); return None
        return data.get('body')
    except httpx.HTTPStatusError as e: print(...); return None
    except (httpx.RequestError, json.JSONDecodeError) as e: print(...); return None
```

The network layer is abstracted to a received response: HTTP status and,
when the body decodes as a JSON object (the documented envelope shape),
its key/value pairs.  `raise_for_status` raises exactly when the status is
not 2xx; a `none` envelope models a body that fails JSON decoding. -/

/-- JSON values, enough for envelope payloads. -/
inductive JVal where
  | null : JVal
  | bool : Bool → JVal
  | str : String → JVal
  | num : Int → JVal
  | arr : List JVal → JVal
  | obj : List (String × JVal) → JVal

/-- Python truthiness of a decoded JSON value. -/
def truthy : JVal → Bool
  | .null => false
  | .bool b => b
  | .str s => !(s == "")
  | .num n => !(n == 0)
  | .arr l => !l.isEmpty
  | .obj f => !f.isEmpty

/-- Python `data.get(k)` on a decoded JSON object. -/
def envGet (data : List (String × JVal)) (k : String) : Option JVal :=
  (data.find? (fun kv => kv.1 == k)).map (fun kv => kv.2)

/-- A received HTTP response: status code and decoded envelope object
(`none` when the body is not valid JSON). -/
structure HttpResponse where
  status : Nat
  envelope : Option (List (String × JVal))

/-- `_get_request`: `none` models Python `None` (failure or absent body),
`some v` models returning `data.get('body') = v`. -/
def getRequest (r : HttpResponse) : Option JVal :=
  if 200 ≤ r.status ∧ r.status ≤ 299 then
    match r.envelope with
    | none => none
    | some data =>
      if truthy (.obj data) && (match envGet data "error" with
          | some e => truthy e
          | none => false) then
        none
      else envGet data "body"
  else none

/-! ## Helper lemmas -/

/-- Lowercasing an uppercase letter yields a letter outside `[A-Z]`. -/
theorem isUp_lowerChar (c : Char) : isUp (lowerChar c) = false := by
  unfold lowerChar
  cases h : caseTable.find? (fun p => p.1 == c) with
  | none =>
    show isUp c = false
    rw [List.find?_eq_none] at h
    simp only [isUp, List.any_eq_false]
    intro p hp
    simp [h p hp]
  | some pr =>
    show isUp pr.2 = false
    have hmem := List.mem_of_find?_eq_some h
    fin_cases hmem <;> decide

/-- A character outside `[A-Z]` is fixed by `lowerChar`. -/
theorem lowerChar_of_not_up (x : Char) (h : isUp x = false) : lowerChar x = x := by
  unfold lowerChar
  cases hf : caseTable.find? (fun p => p.1 == x) with
  | none => rfl
  | some pr =>
    exfalso
    have : isUp x = true := by
      simp only [isUp, List.any_eq_true]
      refine ⟨pr, List.mem_of_find?_eq_some hf, ?_⟩
      simpa using List.find?_some hf
    rw [h] at this
    exact Bool.false_ne_true this

/-- `lowerChar` is idempotent. -/
theorem lowerChar_idem (c : Char) : lowerChar (lowerChar c) = lowerChar c :=
  lowerChar_of_not_up (lowerChar c) (isUp_lowerChar c)

/-- A list with no `[A-Z]` character is untouched by the first regex
substitution, in either scan mode. -/
theorem sub1go_of_no_upper (l : List Char) (h : ∀ c ∈ l, isUp c = false) :
    ∀ m, sub1go m l = l := by
  induction l with
  | nil => intro m; rfl
  | cons c rest ih =>
    intro m
    have hrest : ∀ x ∈ rest, isUp x = false := fun x hx => h x (List.mem_cons_of_mem _ hx)
    match rest with
    | c1 :: c2 :: rest2 =>
      have h1 : isUp c1 = false := h c1 (by simp)
      rw [sub1go]
      simp [h1, ih hrest]
    | [c1] => rfl
    | [] => rfl

/-- A list with no `[A-Z]` character is untouched by the second regex
substitution. -/
theorem sub2_of_no_upper (l : List Char) (h : ∀ c ∈ l, isUp c = false) :
    sub2 l = l := by
  induction l with
  | nil => rfl
  | cons c rest ih =>
    have hrest : ∀ x ∈ rest, isUp x = false := fun x hx => h x (List.mem_cons_of_mem _ hx)
    match rest with
    | [] => rfl
    | c1 :: rest1 =>
      have h1 : isUp c1 = false := h c1 (by simp)
      rw [sub2]
      simp [h1, ih hrest]

/-- The output of `to_snake_case` contains no `[A-Z]` character. -/
theorem no_upper_in_toSnake (l : List Char) : ∀ c ∈ toSnake l, isUp c = false := by
  intro c hc
  unfold toSnake at hc
  rcases List.mem_map.mp hc with ⟨x, _, rfl⟩
  exact isUp_lowerChar x

/-- `to_snake_case` is idempotent on character lists. -/
theorem toSnake_idem (l : List Char) : toSnake (toSnake l) = toSnake l := by
  have hno := no_upper_in_toSnake l
  have h1 : sub1 (toSnake l) = toSnake l := sub1go_of_no_upper _ hno false
  have h2 : sub2 (toSnake l) = toSnake l := sub2_of_no_upper _ hno
  show (sub2 (sub1 (toSnake l))).map lowerChar = toSnake l
  rw [h1, h2]
  show ((sub2 (sub1 l)).map lowerChar).map lowerChar = toSnake l
  rw [List.map_map]
  have : lowerChar ∘ lowerChar = lowerChar := funext lowerChar_idem
  rw [this]
  rfl

/-- The characterization of `generate_pydantic_models`: the models output
with a given `raw_name` are determined by the first heading carrying that
name — none if the name was already processed or the first such heading
has no container, otherwise exactly the model built from that heading. -/
theorem genModels_filter_eq (secs : List DocSection) (n : String) (seen : List String) :
    (genModels secs seen).filter (fun m => m.raw_name == n) =
      if seen.contains n then []
      else
        match secs.find? (fun s => s.raw_name == n) with
        | none => []
        | some s =>
          match s.container with
          | none => []
          | some rows => [mkModel n rows]
      := by
  induction secs generalizing seen with
  | nil =>
    simp only [genModels, List.filter_nil, List.find?_nil]
    split <;> rfl
  | cons s rest ih =>
    by_cases hseen : seen.contains s.raw_name
    · rw [genModels, if_pos hseen, ih seen]
      by_cases hn : s.raw_name = n
      · subst hn
        rw [if_pos hseen, if_pos hseen]
      · have hfind : List.find? (fun x => x.raw_name == n) (s :: rest)
            = List.find? (fun x => x.raw_name == n) rest :=
          List.find?_cons_of_neg _ (by simp [hn])
        rw [hfind]
    · rw [genModels, if_neg hseen]
      by_cases hn : s.raw_name = n
      · subst hn
        have hfind : List.find? (fun x => x.raw_name == s.raw_name) (s :: rest)
            = some s :=
          List.find?_cons_of_pos _ (by simp)
        simp only [hfind, if_neg hseen]
        cases hc : s.container with
        | none =>
          rw [ih (s.raw_name :: seen), if_pos (by simp)]
        | some rows =>
          rw [List.filter_cons_of_pos (by simp [mkModel]),
            ih (s.raw_name :: seen), if_pos (by simp)]
      · have hfind : List.find? (fun x => x.raw_name == n) (s :: rest)
            = List.find? (fun x => x.raw_name == n) rest :=
          List.find?_cons_of_neg _ (by simp [hn])
        have hcont : (s.raw_name :: seen).contains n = seen.contains n := by
          simp [List.contains_cons, beq_iff_eq, Ne.symm hn]
        cases hc : s.container with
        | none =>
          rw [ih (s.raw_name :: seen), hcont, hfind]
        | some rows =>
          rw [List.filter_cons_of_neg (by simp [mkModel, hn]),
            ih (s.raw_name :: seen), hcont, hfind]

/-! ## Claims -/

/-- C1 (counterexample): function-name generation is not collision-free —
the two distinct path templates `/a/B` and `/a/b` normalize to the same
function name `get_a_b`, because `to_snake_case` lowercases without
inserting a boundary after a non-alphanumeric character. -/
theorem parseFunctionName_case_collision_cex :
    parseFunctionNameStr "/a/B" = parseFunctionNameStr "/a/b"
      ∧ ("/a/B" : String) ≠ "/a/b" := by
  constructor
  · decide
  · decide

/-- C1 (amended): function-name generation is deterministic but not
collision-free.  A whole family of collisions: a path and the same path
with an extra leading slash always yield the same function name. -/
theorem parseFunctionName_leading_slash (p : String) :
    parseFunctionNameStr ("/" ++ p) = parseFunctionNameStr p := rfl

/-- C2 (counterexample): the options of the literal union inferred for
`"OPEN, FILTERED, CLOSED, DISBANDED"` are not the input-cased values:
`map_type_hint` lowercases its input before splitting on commas. -/
theorem literalOptions_upper_cex :
    literalOptions "OPEN, FILTERED, CLOSED, DISBANDED"
      ≠ ["OPEN", "FILTERED", "CLOSED", "DISBANDED"] := by decide

/-- C2 (amended): `map_type_hint` on `"OPEN, FILTERED, CLOSED, DISBANDED"`
yields a closed literal union of exactly four options in input order with
no surrounding whitespace and no deduplication, but lowercased: `open`
first and `disbanded` last. -/
theorem mapTypeHint_enum_inference :
    literalOptions "OPEN, FILTERED, CLOSED, DISBANDED"
        = ["open", "filtered", "closed", "disbanded"]
      ∧ mapTypeHint "OPEN, FILTERED, CLOSED, DISBANDED"
        = "Literal['open', 'filtered', 'closed', 'disbanded']" := by
  constructor
  · decide
  · decide

/-- C3: for endpoints whose detail section declares a response model,
`is_list` of `parse_api_methods` equals the ordered first-match rule (no
parameter marker → collection; trigger word → collection; path ending in
`/maps` → collection; otherwise single); in particular
`/btd6/users/:userID` is single and `/btd6/ct/:ctID/leaderboard/player`
is a collection. -/
theorem cardinality_rule_spec_correct :
    (∀ p : String, isListCodegen p = cardinalityRuleSpec p)
      ∧ isListCodegen "/btd6/users/:userID" = false
      ∧ isListCodegen "/btd6/ct/:ctID/leaderboard/player" = true := by
  refine ⟨fun p => ?_, by decide, by decide⟩
  unfold isListCodegen cardinalityRuleSpec
  cases h1 : strContains p ":" <;>
    cases h2 : listTriggers.any (fun t => strContains p t) <;>
      cases h3 : strEndsWith p "/maps" <;> simp

/-- C4: model deduplication is first-seen-wins — whenever the first
heading with a given `raw_name` has a field container, the extractor
emits exactly one model with that `raw_name`, built from that first
occurrence, regardless of how many later headings (with different field
tables) repeat the name. -/
theorem model_dedup_first_seen_wins (secs : List DocSection) (n : String)
    (s : DocSection) (rows : List DocRow)
    (h1 : secs.find? (fun x => x.raw_name == n) = some s)
    (h2 : s.container = some rows)
    (_h3 : 2 ≤ (secs.filter (fun x => x.raw_name == n)).length) :
    (genModels secs []).filter (fun m => m.raw_name == n) = [mkModel n rows] := by
  rw [genModels_filter_eq]
  simp [h1, h2]

/-- C4 (witness): a document with two `m` headings carrying different
field tables yields exactly the model of the first one. -/
theorem model_dedup_first_seen_wins_witness :
    (genModels
        [⟨"m", some [⟨["a", "d1", "string"]⟩]⟩,
         ⟨"m", some [⟨["b", "d2", "number"]⟩]⟩] []).filter
      (fun m => m.raw_name == "m")
      = [mkModel "m" [⟨["a", "d1", "string"]⟩]] :=
  model_dedup_first_seen_wins
    [⟨"m", some [⟨["a", "d1", "string"]⟩]⟩, ⟨"m", some [⟨["b", "d2", "number"]⟩]⟩]
    "m" ⟨"m", some [⟨["a", "d1", "string"]⟩]⟩ [⟨["a", "d1", "string"]⟩]
    rfl rfl (by decide)

/-- C5 (counterexample): `to_snake_case("HoM")` is exactly `"ho_m"` — the
lowercase-to-uppercase rule fires between `o` and `M`, so the claimed
protection of short acronym-like runs does not exist. -/
theorem toSnake_HoM_cex : toSnakeStr "HoM" = "ho_m" := by decide

/-- C5 (amended): `to_snake_case` does insert a separator inside a short
capital/capital run: `HoM` becomes `ho_m`, while an ordinary medial-capital
identifier such as `totalScores` becomes `total_scores`. -/
theorem toSnake_splits_short_acronym :
    toSnakeStr "HoM" = "ho_m" ∧ toSnakeStr "totalScores" = "total_scores" := by
  constructor
  · decide
  · decide

/-- C6 (counterexample): a decoded 2xx envelope whose `error` key is
present but maps to a falsy value (here `null`) is not treated as a
failure — `_get_request` returns the body payload anyway, because the
code tests `data.get('error')` for truthiness, not key presence. -/
theorem getRequest_falsy_error_cex :
    envGet [("error", JVal.null), ("body", JVal.num 7)] "error" = some JVal.null
      ∧ getRequest ⟨200, some [("error", JVal.null), ("body", JVal.num 7)]⟩
        = some (JVal.num 7) := by
  constructor
  · rfl
  · rfl

/-- C6 (amended): `_get_request` reports failure (returns `None`) whenever
the decoded envelope carries a truthy `error` value, and whenever the HTTP
status is not 2xx; a body payload is only ever returned for a 2xx status
with no truthy `error` value. -/
theorem getRequest_error_handling (status : Nat)
    (data : List (String × JVal)) (v : JVal) :
    (envGet data "error" = some v → truthy v = true →
      getRequest ⟨status, some data⟩ = none)
    ∧ (¬(200 ≤ status ∧ status ≤ 299) → getRequest ⟨status, some data⟩ = none) := by
  constructor
  · intro h1 h2
    unfold getRequest
    by_cases hs : 200 ≤ status ∧ status ≤ 299
    · rw [if_pos hs]
      have hne : data ≠ [] := by
        intro he
        rw [he] at h1
        exact Option.noConfusion h1
      have hobj : truthy (.obj data) = true := by
        simp [truthy, hne]
      simp [h1, hobj, h2]
    · rw [if_neg hs]
  · intro h
    unfold getRequest
    rw [if_neg h]

/-- C6 (witness): a truthy error string on a 200 response, and a 404
response, both yield `None`. -/
theorem getRequest_error_handling_witness :
    getRequest ⟨200, some [("error", JVal.str "boom"), ("body", JVal.num 1)]⟩ = none
    ∧ getRequest ⟨404, some [("error", JVal.str "boom"), ("body", JVal.num 1)]⟩ = none :=
  ⟨(getRequest_error_handling 200 [("error", JVal.str "boom"), ("body", JVal.num 1)]
      (JVal.str "boom")).1 rfl (by decide),
   (getRequest_error_handling 404 [("error", JVal.str "boom"), ("body", JVal.num 1)]
      (JVal.str "boom")).2 (by decide)⟩

/-- C7 (counterexample): a `Response Model:` heading whose container holds
no row with more than two columns is not skipped — the extractor still
emits a model (with an empty field list) for it. -/
theorem empty_field_table_model_cex :
    genModels [⟨"m", some [⟨["x"]⟩]⟩] [] ≠ [] := by decide

/-- C7 (amended): only a heading with no following field container is
skipped; a heading whose field table yields zero matching rows still
produces a model definition, with an empty field list. -/
theorem empty_field_table_model_emitted (n : String) (rows : List DocRow)
    (h : extractFields rows = []) :
    genModels [⟨n, some rows⟩] []
        = [{ raw_name := n, class_name := toPascalStr n, fields := [] }]
      ∧ genModels [⟨n, none⟩] [] = [] := by
  constructor
  · simp [genModels, mkModel, h]
  · simp [genModels]

/-- C7 (witness): a container with a single one-column row yields a model
with no fields; a missing container yields nothing. -/
theorem empty_field_table_model_emitted_witness :
    genModels [⟨"m", some [⟨["x"]⟩]⟩] []
        = [{ raw_name := "m", class_name := toPascalStr "m", fields := [] }]
      ∧ genModels [⟨"m", none⟩] [] = [] :=
  empty_field_table_model_emitted "m" [⟨["x"]⟩] rfl

/-- C8: `to_snake_case` is deterministic (it is a function) and
idempotent: applying it twice gives the same result as applying it once,
for every input string. -/
theorem toSnakeStr_idempotent (x : String) :
    toSnakeStr (toSnakeStr x) = toSnakeStr x :=
  congrArg String.mk (toSnake_idem x.data)

/-- C9: `processed_models` is extended before the container lookup, so
when the first heading with a given `raw_name` has no following field
container, no model with that `raw_name` is ever emitted — even when a
later heading with the same `raw_name` has a valid field table. -/
theorem first_heading_without_container_blocks_name
    (secs : List DocSection) (n : String) (s : DocSection)
    (h1 : secs.find? (fun x => x.raw_name == n) = some s)
    (h2 : s.container = none) :
    (genModels secs []).filter (fun m => m.raw_name == n) = [] := by
  rw [genModels_filter_eq]
  simp [h1, h2]

/-- C9 (witness): a first `m` heading without container suppresses the
model even though the second `m` heading has a three-column row. -/
theorem first_heading_without_container_blocks_name_witness :
    (genModels [⟨"m", none⟩, ⟨"m", some [⟨["a", "b", "string"]⟩]⟩] []).filter
      (fun m => m.raw_name == "m") = [] :=
  first_heading_without_container_blocks_name
    [⟨"m", none⟩, ⟨"m", some [⟨["a", "b", "string"]⟩]⟩] "m" ⟨"m", none⟩ rfl rfl

/-- C10 (counterexample): the two generators do not decide cardinality
identically — on `/x/:id/maps`, `gen.py` (which tests `"/maps" == path`)
yields single while `codegen/gen.py` (which tests `path.endswith("/maps")`)
yields collection. -/
theorem isList_implementations_differ_cex :
    isListGen "/x/:id/maps" ≠ isListCodegen "/x/:id/maps" := by decide

/-- C10 (amended): `gen.py`'s `is_list` implies `codegen/gen.py`'s; the two
agree except on paths that contain a parameter marker, contain none of the
trigger words, and end in `/maps` without being exactly `/maps`, where only
`codegen/gen.py` yields a collection. -/
theorem isListGen_implies_isListCodegen (p : String) (h : isListGen p = true) :
    isListCodegen p = true := by
  by_cases hq : p = "/maps"
  · subst hq
    decide
  · have hq' : (p == "/maps") = false := by simp [hq]
    unfold isListGen at h
    rw [hq'] at h
    unfold isListCodegen listTriggers
    simp only [List.any_cons, List.any_nil, Bool.or_false] at h ⊢
    cases ha : strContains p ":" <;> cases hL : strContains p "leaderboard" <;>
      cases hF : strContains p "filter" <;> cases hM : strContains p "matches" <;>
        cases hH : strContains p "homs" <;> simp_all

/-- C10 (witness): on the parameterless path `/btd6/races` both
implementations agree on collection. -/
theorem isListGen_implies_isListCodegen_witness :
    isListCodegen "/btd6/races" = true :=
  isListGen_implies_isListCodegen "/btd6/races" (by decide)
